import Mathlib

/-!
Shallow embedding of the DNS message codec from `dns-resolver-go`.

Go strings are byte sequences, so hostnames and label data are modelled as
`List Nat` with each element a byte value; `46` is the byte of the dot
character. Go functions that can hit a runtime panic (out-of-range index,
out-of-range slice, division by zero) are modelled with `Option`, where
`none` marks the panicking execution; the repository defines no error values
for its decoding path, so `none` never stands for a returned typed error.
-/

namespace DnsResolver

/-- The byte sequence of the Go string constant `host = "dns.google.com"`. -/
def host : List Nat :=
  [100, 110, 115, 46, 103, 111, 111, 103, 108, 101, 46, 99, 111, 109]

/-- Embedding of Go `strings.Split(host, ".")` on byte sequences: split on the
dot byte 46.  `strings.Split("", ".")` is `[""]`, hence `splitOnDot [] = [[]]`. -/
def splitOnDot : List Nat → List (List Nat)
  | [] => [[]]
  | c :: rest =>
    if c = 46 then [] :: splitOnDot rest
    else
      match splitOnDot rest with
      | [] => [[c]]
      | s :: ss => (c :: s) :: ss

/-- Embedding of Go `strings.Join(parts, ".")` on byte sequences. -/
def joinDots : List (List Nat) → List Nat
  | [] => []
  | [s] => s
  | s :: ss => s ++ 46 :: joinDots ss

/-- Embedding of `encodeHost` (src/unnamed/part_001 lines 122-137): for each
dot-separated section emit `byte(len(section))` (hence the `% 256`, Go's
`byte` conversion truncates) followed by the section's bytes, then a final
zero byte.  The Go function performs no validation and cannot fail. -/
def encodeHost (host : List Nat) : List Nat :=
  ((splitOnDot host).map (fun sec => sec.length % 256 :: sec)).flatten ++ [0]

/-- Fuel-indexed embedding of the length-byte scan loop shared by
`domainLength`, `decodeHost` and `extractAnswers`:

    shift := buf[0]; bytes := 0
    for shift != 0 { bytes += int(shift)+1; shift = buf[bytes] }

viewed on the suffix of the buffer at the current length byte.  Reading past
the end of the buffer is a Go panic, modelled by `none` (the `[]` cases).
Each recursive step removes at least two elements from the list, so fuel
`buf.length + 1` can never run out before the loop ends or panics; the
`fuel = 0` case is unreachable from `collectShifts`. -/
def collectShiftsF : Nat → List Nat → Option (List Nat)
  | 0, _ => none
  | _ + 1, [] => none
  | _ + 1, 0 :: _ => some []
  | fuel + 1, (n + 1) :: rest =>
    (collectShiftsF fuel (rest.drop (n + 1))).map (fun shifts => (n + 1) :: shifts)

/-- The scan loop of `decodeHost` (first loop, lines 143-150): the list of
label lengths read before the zero terminator, or `none` on an
out-of-bounds read. -/
def collectShifts (buf : List Nat) : Option (List Nat) :=
  collectShiftsF (buf.length + 1) buf

/-- Embedding of `domainLength` (src/unnamed/part_001 lines 109-120): the
loop sums `shift+1` per label, then one more for the zero pad;
`none` models the out-of-bounds panic on a truncated buffer. -/
def domainLength (message : List Nat) : Option Nat :=
  (collectShifts message).map (fun shifts => (shifts.map (fun s => s + 1)).sum + 1)

/-- The slicing loop of `decodeHost` (second loop, lines 152-157):
`sliceStart` begins at 1 and each section is `encodedHost[sliceStart :
sliceStart+shift]`, after which `sliceStart` advances by `shift+1`; on the
suffix view each step skips the length byte, takes `shift` bytes, and drops
`shift+1`.  When the scan loop succeeded every slice is in bounds, so
truncating `take`/`drop` coincide with Go slicing here. -/
def extractParts : List Nat → List Nat → List (List Nat)
  | [], _ => []
  | v :: vs, buf => (buf.drop 1).take v :: extractParts vs (buf.drop (v + 1))

/-- Embedding of `decodeHost` (src/unnamed/part_001 lines 139-160): scan the
length bytes, slice out the sections, join with dots.  `none` models the
panic on a malformed buffer. -/
def decodeHost (encodedHost : List Nat) : Option (List Nat) :=
  (collectShifts encodedHost).map
    (fun valueShifts => joinDots (extractParts valueShifts encodedHost))

/-- Embedding of the `dnsHeader` struct (src/unnamed/part_001 lines 33-40);
each field is a Go `uint16` value, carried as a `Nat`. -/
structure dnsHeader where
  id : Nat
  flags : Nat
  numQuestions : Nat
  numAnswers : Nat
  numAuthorityRR : Nat
  numAdditionalRR : Nat
deriving Repr, DecidableEq

/-- Embedding of the `dnsQuestion` struct (src/unnamed/part_001 lines 17-21). -/
structure dnsQuestion where
  qName : List Nat
  qType : Nat
  qClass : Nat
deriving Repr, DecidableEq

/-- Embedding of the `resourceRecordNS` struct (src/unnamed/part_001 lines
84-92); the Go `string` fields `name` and `RDData` are byte sequences. -/
structure resourceRecordNS where
  name : List Nat
  recordType : Nat
  recordClass : Nat
  TTL : Nat
  RDLength : Nat
  RDData : List Nat
deriving Repr, DecidableEq

/-- Embedding of `uint16ToByteSlice` (src/unnamed/part_001 lines 166-173):
big-endian two-byte encoding, `[byte(n >> 8), byte(n)]`; the `% 256` is
Go's `byte` truncation. -/
def uint16ToByteSlice (number : Nat) : List Nat :=
  [number / 256 % 256, number % 256]

/-- Embedding of `packUint16Fields` (src/unnamed/part_001 lines 94-102). -/
def packUint16Fields (fields : List Nat) : List Nat :=
  (fields.map uint16ToByteSlice).flatten

/-- Embedding of `dnsHeader.packHeader` (src/unnamed/part_001 lines 42-46). -/
def packHeader (header : dnsHeader) : List Nat :=
  packUint16Fields [header.id, header.flags, header.numQuestions,
    header.numAnswers, header.numAuthorityRR, header.numAdditionalRR]

/-- Embedding of `dnsHeader.checkResponse` (src/unnamed/part_001 lines
48-56): the Go method returns a non-nil error exactly when
`header.flags < 32767`; `true` here models that non-nil error. -/
def checkResponse (header : dnsHeader) : Bool :=
  header.flags < 32767

/-- Embedding of `dnsQuestion.packQuestion` (src/unnamed/part_001 lines
23-31). -/
def packQuestion (question : dnsQuestion) : List Nat :=
  question.qName ++ uint16ToByteSlice question.qType ++ uint16ToByteSlice question.qClass

/-- Embedding of `dnsMessage.packMessage` (src/unnamed/part_001 lines
63-70). -/
def packMessage (header : List Nat) (question : List Nat) : List Nat :=
  header ++ question

/-- Embedding of `unpackResponseHeader` (src/unnamed/part_001 lines
175-189): reads the six big-endian 16-bit fields from the first 12 bytes;
the Go slice `message[:12]` panics on a buffer of fewer than 12 bytes,
modelled by `none`. -/
def unpackResponseHeader : List Nat → Option dnsHeader
  | b0 :: b1 :: b2 :: b3 :: b4 :: b5 :: b6 :: b7 :: b8 :: b9 :: b10 :: b11 :: _ =>
    some { id := b0 * 256 + b1, flags := b2 * 256 + b3,
           numQuestions := b4 * 256 + b5, numAnswers := b6 * 256 + b7,
           numAuthorityRR := b8 * 256 + b9, numAdditionalRR := b10 * 256 + b11 }
  | _ => none

/-- The splitting loop of `extractAnswers` (src/unnamed/part_001 lines
247-260): walk `index` over `initialAnswer`, and every time `count` reaches
`separator` append the slice `initialAnswer[part : index+1]` and advance
`part` by `separator+1`.  `separator` is a Go `int` and can be `-1` (then no
slice is ever appended); whenever the append branch runs, `part ≤ index+1 ≤
len(initialAnswer)`, so the truncating `take`/`drop` slice coincides with Go
slicing. -/
def splitLoop (initialAnswer : List Nat) (separator : Int) : List (List Nat) :=
  (((List.range initialAnswer.length).foldl
    (fun (st : List (List Nat) × Int × Nat) index =>
      let (answers, count, part) := st
      if count = separator then
        (answers ++ [(initialAnswer.drop part).take (index + 1 - part)],
         0, part + (separator + 1).toNat)
      else (answers, count + 1, part))
    ([], 0, 0))).1

/-- Embedding of `extractAnswers` (src/unnamed/part_001 lines 228-263):
scan the question name's length bytes (same loop as `domainLength`), add 5,
slice the rest of the message off at that point, and split it into
`responseAnswers` equal chunks of `len/responseAnswers` bytes each.
`none` models the Go panics: out-of-bounds scan read, the slice
`message[questionBytes:]` with `questionBytes > len(message)`, and the
division by zero when `responseAnswers = 0`. -/
def extractAnswers (message : List Nat) (responseAnswers : Nat) : Option (List (List Nat)) :=
  match collectShifts message with
  | none => none
  | some shifts =>
    let questionBytes := (shifts.map (fun s => s + 1)).sum + 5
    if questionBytes > message.length then none
    else if responseAnswers = 0 then none
    else
      let initialAnswer := message.drop questionBytes
      some (splitLoop initialAnswer ((initialAnswer.length / responseAnswers : Nat) - 1))

/-- Fuel-indexed embedding of the pointer-target scan loop of
`unpackAuthorityAnswer` and `unpackAnswers` (src/unnamed/part_001 lines
204-209 and 276-282):

    for shift != 0 { fqdnBytes += int(shift)+1; shift = message[12+fqdnBytes] }

`none` models the out-of-bounds read `message[12+fqdnBytes]`.  `fqdnBytes`
grows by at least 1 per iteration, so with fuel `message.length + 2` the
fuel cannot run out before the read index `12 + fqdnBytes` leaves the
buffer; the `fuel = 0` case is unreachable from `unpackAuthorityAnswer`. -/
def scanLoop (message : List Nat) : Nat → Nat → Nat → Option Nat
  | 0, _, _ => none
  | fuel + 1, shift, fqdnBytes =>
    if shift = 0 then some fqdnBytes
    else
      match (message.drop (12 + (fqdnBytes + shift + 1))).head? with
      | none => none
      | some next => scanLoop message fuel next (fqdnBytes + shift + 1)

/-- Embedding of `unpackAuthorityAnswer` (src/unnamed/part_001 lines
196-225).  If the first two answer bytes, as a big-endian 16-bit value,
exceed 49152 the name is compressed: follow the 14-bit pointer into
`message`, scan the pointed-to name with `scanLoop`, slice it out and decode
it, then read type, class, ttl and rdlength from the answer bytes and decode
the rdata as a host name.  Otherwise the Go function returns the zero-value
`resourceRecordNS`.  `none` models the Go panics (short `answer` slices,
pointer or name slice out of bounds, scan loop out-of-bounds read). -/
def unpackAuthorityAnswer (message : List Nat) (answer : List Nat) : Option resourceRecordNS :=
  match answer with
  | a0 :: a1 :: _ =>
    if a0 * 256 + a1 > 49152 then
      let referenceDomain := a0 * 256 + a1 - 49152
      if referenceDomain > message.length then none
      else
        match (message.drop referenceDomain).head? with
        | none => none
        | some shift0 =>
          match scanLoop message (message.length + 2) shift0 0 with
          | none => none
          | some fqdnBytes =>
            if referenceDomain + fqdnBytes + 1 > message.length then none
            else
              match decodeHost ((message.drop referenceDomain).take (fqdnBytes + 1)) with
              | none => none
              | some fqdn =>
                match answer with
                | _ :: _ :: a2 :: a3 :: a4 :: a5 :: a6 :: a7 :: a8 :: a9 :: a10 :: a11 :: rdRest =>
                  let rdLength := a10 * 256 + a11
                  if rdRest.length < rdLength then none
                  else
                    match decodeHost (rdRest.take rdLength) with
                    | none => none
                    | some rdData =>
                      some { name := fqdn,
                             recordType := a2 * 256 + a3,
                             recordClass := a4 * 256 + a5,
                             TTL := ((a6 * 256 + a7) * 256 + a8) * 256 + a9,
                             RDLength := rdLength,
                             RDData := rdData }
                | _ => none
    else
      some { name := [], recordType := 0, recordClass := 0, TTL := 0,
             RDLength := 0, RDData := [] }
  | _ => none

/-- The question built in `main` (src/unnamed/part_001 lines 333-337). -/
def sendingQuestion : dnsQuestion :=
  { qName := encodeHost host, qType := 1, qClass := 1 }

/-- The header built in `main` (src/unnamed/part_001 lines 340-347): the
query id is the literal constant 22; `generateQueryID` is never called. -/
def sendingHeader : dnsHeader :=
  { id := 22, flags := 0, numQuestions := 1, numAnswers := 0,
    numAuthorityRR := 0, numAdditionalRR := 0 }

/-- The query bytes `main` sends (src/unnamed/part_001 lines 354-357). -/
def mainQueryMessage : List Nat :=
  packMessage (packHeader sendingHeader) (packQuestion sendingQuestion)

/-- A 14-byte message whose single authority answer starts at offset 12 with
the compression pointer bytes `0xC0 0x0C`, i.e. a pointer to offset 12 —
the name points at itself. -/
def selfPointerMessage : List Nat :=
  [0, 22, 128, 0, 0, 0, 0, 0, 0, 1, 0, 0] ++ [192, 12]

/-- A response body (header already stripped, as `main` passes it): an 8-byte
question for the name `ab` (`[2,97,98,0]` + type + class), then two answer
records of different sizes: a 16-byte A record (2-byte compressed name +
10 envelope bytes + rdlength 4) and a 28-byte NS record (2-byte compressed
name + 10 envelope bytes + rdlength 16). -/
def mixedSizeAnswerMessage : List Nat :=
  [2, 97, 98, 0, 0, 1, 0, 1] ++
    ([192, 12, 0, 1, 0, 1, 0, 0, 0, 60, 0, 4, 1, 2, 3, 4] ++
     [192, 12, 0, 2, 0, 1, 0, 0, 0, 60, 0, 16,
      3, 110, 115, 49, 7, 101, 120, 97, 109, 112, 108, 101, 3, 99, 111, 109])

theorem splitOnDot_ne_nil (l : List Nat) : splitOnDot l ≠ [] := by
  induction l with
  | nil => simp [splitOnDot]
  | cons c rest ih =>
    by_cases hc : c = 46
    · simp [splitOnDot, hc]
    · simp only [splitOnDot, if_neg hc]
      rcases h : splitOnDot rest with _ | ⟨s, ss⟩ <;> simp

theorem joinDots_splitOnDot (l : List Nat) : joinDots (splitOnDot l) = l := by
  induction l with
  | nil => rfl
  | cons c rest ih =>
    by_cases hc : c = 46
    · subst hc
      simp only [splitOnDot, if_pos rfl]
      rcases h : splitOnDot rest with _ | ⟨s, ss⟩
      · exact absurd h (splitOnDot_ne_nil rest)
      · rw [h] at ih
        simpa [joinDots] using ih
    · simp only [splitOnDot, if_neg hc]
      rcases h : splitOnDot rest with _ | ⟨s, ss⟩
      · exact absurd h (splitOnDot_ne_nil rest)
      · rw [h] at ih
        cases ss with
        | nil => simpa [joinDots] using ih
        | cons t ts =>
          simp only [joinDots, List.cons_append] at ih ⊢
          rw [ih]

theorem splitOnDot_sum (l : List Nat) :
    ((splitOnDot l).map (fun s => s.length + 1)).sum = l.length + 1 := by
  induction l with
  | nil => rfl
  | cons c rest ih =>
    by_cases hc : c = 46
    · simp only [splitOnDot, if_pos hc, List.map_cons, List.sum_cons, List.length_cons,
        List.length_nil]
      omega
    · simp only [splitOnDot, if_neg hc]
      rcases h : splitOnDot rest with _ | ⟨s, ss⟩
      · exact absurd h (splitOnDot_ne_nil rest)
      · rw [h] at ih
        simp only [List.map_cons, List.sum_cons, List.length_cons] at ih ⊢
        omega

theorem splitOnDot_length_le (l : List Nat) : (splitOnDot l).length ≤ l.length + 1 := by
  induction l with
  | nil => simp [splitOnDot]
  | cons c rest ih =>
    by_cases hc : c = 46
    · simp only [splitOnDot, if_pos hc, List.length_cons]
      omega
    · simp only [splitOnDot, if_neg hc]
      rcases h : splitOnDot rest with _ | ⟨s, ss⟩
      · simp
      · rw [h] at ih
        simp only [List.length_cons] at ih ⊢
        omega

theorem encodeHost_length (l : List Nat) : (encodeHost l).length = l.length + 2 := by
  simp only [encodeHost, List.length_append, List.length_flatten, List.map_map,
    List.length_cons, List.length_nil, List.length_singleton, Function.comp]
  have := splitOnDot_sum l
  simp only [Function.comp_def, List.length_cons] at *
  omega

theorem encodeHost_terminator (l : List Nat) : (encodeHost l).getLast? = some 0 := by
  simp [encodeHost]

theorem collectShiftsF_encoded (sections : List (List Nat))
    (hne : ∀ s ∈ sections, s.length ≠ 0) :
    ∀ fuel, sections.length + 1 ≤ fuel →
      collectShiftsF fuel ((sections.map (fun s => s.length :: s)).flatten ++ [0]) =
        some (sections.map List.length) := by
  induction sections with
  | nil =>
    intro fuel hfuel
    cases fuel with
    | zero => omega
    | succ f => rfl
  | cons s rest ih =>
    intro fuel hfuel
    cases fuel with
    | zero => simp at hfuel
    | succ f =>
      have hs : s.length ≠ 0 := hne s (by simp)
      obtain ⟨m, hm⟩ : ∃ m, s.length = m + 1 := ⟨s.length - 1, by omega⟩
      simp only [List.length_cons] at hfuel
      simp only [List.map_cons, List.flatten_cons, List.cons_append, List.append_assoc, hm]
      simp only [collectShiftsF]
      rw [List.drop_left' hm]
      rw [ih (fun t ht => hne t (List.mem_cons_of_mem _ ht)) f (by omega)]
      rfl

theorem extractParts_encoded (sections : List (List Nat)) (tail : List Nat) :
    extractParts (sections.map List.length)
      ((sections.map (fun s => s.length :: s)).flatten ++ tail) = sections := by
  induction sections generalizing tail with
  | nil => rfl
  | cons s rest ih =>
    simp only [List.map_cons, List.flatten_cons, List.cons_append, List.append_assoc]
    simp only [extractParts, List.drop_succ_cons, List.drop_zero]
    rw [List.take_left, List.drop_left, ih]

theorem be16_recompose (n : Nat) (hn : n < 65536) : n / 256 % 256 * 256 + n % 256 = n := by
  omega

/-- C9: for every header whose six fields are within 16-bit range, decoding
the 12-byte big-endian encoding yields the header back:
`unpackResponseHeader (packHeader h) = some h`. -/
theorem header_roundtrip (h : dnsHeader) (h1 : h.id < 65536) (h2 : h.flags < 65536)
    (h3 : h.numQuestions < 65536) (h4 : h.numAnswers < 65536)
    (h5 : h.numAuthorityRR < 65536) (h6 : h.numAdditionalRR < 65536) :
    unpackResponseHeader (packHeader h) = some h := by
  obtain ⟨i, f, q, a, u, d⟩ := h
  simp only [packHeader, packUint16Fields, uint16ToByteSlice, List.map_cons,
    List.map_nil, List.flatten_cons, List.flatten_nil, List.cons_append,
    List.nil_append, List.append_nil, unpackResponseHeader,
    Option.some.injEq, dnsHeader.mk.injEq]
  exact ⟨be16_recompose i h1, be16_recompose f h2, be16_recompose q h3,
    be16_recompose a h4, be16_recompose u h5, be16_recompose d h6⟩

/-- Witness for `header_roundtrip` at the concrete header a query of the
repository would carry (id 22, recursion-desired flags 256, one question). -/
theorem header_roundtrip_witness :
    unpackResponseHeader (packHeader ⟨22, 256, 1, 0, 0, 0⟩) =
      some (⟨22, 256, 1, 0, 0, 0⟩ : dnsHeader) :=
  header_roundtrip ⟨22, 256, 1, 0, 0, 0⟩ (by decide) (by decide) (by decide) (by decide)
    (by decide) (by decide)

/-- C3: for every hostname whose dot-separated labels are each 1 to 63 bytes
long and whose encoding (labels, length prefixes and terminator) is at most
255 bytes, decoding the encoding yields the hostname back. -/
theorem decode_encode_roundtrip (hostname : List Nat)
    (hlab : ∀ s ∈ splitOnDot hostname, 1 ≤ s.length ∧ s.length ≤ 63)
    (_hsize : (encodeHost hostname).length ≤ 255) :
    decodeHost (encodeHost hostname) = some hostname := by
  have hmap : (splitOnDot hostname).map (fun sec => sec.length % 256 :: sec) =
      (splitOnDot hostname).map (fun sec => sec.length :: sec) := by
    refine List.map_congr_left (fun s hs => ?_)
    rw [Nat.mod_eq_of_lt (by have := (hlab s hs).2; omega)]
  have hne : ∀ s ∈ splitOnDot hostname, s.length ≠ 0 := by
    intro s hs
    have := (hlab s hs).1
    omega
  have hbuf : encodeHost hostname =
      ((splitOnDot hostname).map (fun sec => sec.length :: sec)).flatten ++ [0] := by
    rw [encodeHost, hmap]
  have hlen : (splitOnDot hostname).length + 1 ≤ (encodeHost hostname).length + 1 := by
    have hc := splitOnDot_length_le hostname
    have he := encodeHost_length hostname
    omega
  rw [decodeHost, collectShifts]
  rw [hbuf] at hlen ⊢
  rw [collectShiftsF_encoded (splitOnDot hostname) hne _ hlen]
  simp only [Option.map_some']
  rw [extractParts_encoded, joinDots_splitOnDot]

/-- Witness for `decode_encode_roundtrip` at the repository's own hostname
`dns.google.com`. -/
theorem decode_encode_roundtrip_witness : decodeHost (encodeHost host) = some host :=
  decode_encode_roundtrip host (by decide) (by decide)

/-- C8: `encodeHost` on the bytes of `"dns.google.com"` yields exactly
`[3,100,110,115,6,103,111,111,103,108,101,3,99,111,109,0]`, and `decodeHost`
on those bytes yields the bytes of `"dns.google.com"` back. -/
theorem encodeHost_decodeHost_dns_google :
    encodeHost host = [3, 100, 110, 115, 6, 103, 111, 111, 103, 108, 101, 3, 99, 111, 109, 0] ∧
    decodeHost [3, 100, 110, 115, 6, 103, 111, 111, 103, 108, 101, 3, 99, 111, 109, 0] =
      some host := by
  decide

/-- C10: `encodeHost` is total — it is a plain function into byte sequences
with no failure outcome — and for every input the result has length
`len(host) + 2` and ends in the zero terminator byte. -/
theorem encodeHost_total_shape (hostname : List Nat) :
    (encodeHost hostname).length = hostname.length + 2 ∧
    (encodeHost hostname).getLast? = some 0 :=
  ⟨encodeHost_length hostname, encodeHost_terminator hostname⟩

/-- C7 counterexample: on `"a..b"` (bytes `[97,46,46,98]`), a name with an
empty label, `encodeHost` does return a byte sequence — `[1,97,0,1,98,0]` —
rather than failing; its return type carries no `InvalidLabel` (or any)
error, refuting the claim that such inputs yield no byte sequence. -/
theorem encodeHost_accepts_empty_label :
    encodeHost [97, 46, 46, 98] = [1, 97, 0, 1, 98, 0] := by
  decide

/-- C7 amended: `encodeHost` performs no label validation: even when some
dot-separated label is empty or longer than 63 bytes, it still returns the
length-prefixed byte sequence of length `len(host) + 2` ending in the zero
terminator (a label's length byte being `len % 256`). -/
theorem encodeHost_no_validation (hostname : List Nat)
    (_hbad : ∃ s ∈ splitOnDot hostname, s.length = 0 ∨ 63 < s.length) :
    (encodeHost hostname).length = hostname.length + 2 ∧
    (encodeHost hostname).getLast? = some 0 :=
  ⟨encodeHost_length hostname, encodeHost_terminator hostname⟩

/-- Witness for `encodeHost_no_validation` at the bytes of `"a..b"`, whose
middle label is empty. -/
theorem encodeHost_no_validation_witness :
    (encodeHost [97, 46, 46, 98]).length = [97, 46, 46, 98].length + 2 ∧
    (encodeHost [97, 46, 46, 98]).getLast? = some 0 :=
  encodeHost_no_validation [97, 46, 46, 98] (by decide)

/-- C1: the decoding path has no `MalformedMessage` error and does not stay
in bounds on truncated input.  On a 4-byte buffer `unpackResponseHeader`
evaluates the slice `message[:12]`, a Go slice-bounds panic (`none`); on the
buffer `[2, 97]`, which declares a 2-byte label but carries only one byte,
`domainLength` reads past the end of the buffer, an index-out-of-range panic
(`none`).  Neither returns a typed error value. -/
theorem truncated_buffer_decoding_panics :
    unpackResponseHeader [0, 0, 0, 0] = none ∧ domainLength [2, 97] = none := by
  decide

/-- C2: on a message whose authority answer at offset 12 is the compression
pointer `0xC0 0x0C` — a pointer to offset 12, i.e. to itself —
`unpackAuthorityAnswer` follows the pointer, reads the pointer byte `192` as
a label length, and its scan loop reads `message[205]`, far past the 14-byte
buffer: an index-out-of-range panic (`none`).  The code tracks no visited
offsets, bounds no hop count, and defines no `CompressionLoop` error. -/
theorem self_pointer_scan_panics :
    unpackAuthorityAnswer selfPointerMessage (selfPointerMessage.drop 12) = none := by
  decide

/-- C4: `extractAnswers` divides the bytes after the question evenly by the
answer count instead of walking each record's own length.  On
`mixedSizeAnswerMessage` — a 16-byte record followed by a 28-byte record —
it returns two 22-byte chunks, so the span attributed to the first record is
22 bytes, not its actual `2 (compressed name) + 10 (envelope) + 4 (rdlength)
= 16` bytes, and the second chunk starts mid-record. -/
theorem extractAnswers_splits_evenly :
    (extractAnswers mixedSizeAnswerMessage 2).map (fun chunks => chunks.map List.length) =
      some [22, 22] ∧ 2 + 10 + 4 ≠ (22 : Nat) := by
  decide

/-- C5: `checkResponse` is a numeric threshold, not a QR-bit test with an id
match.  The header with `flags = 32767` has its QR bit (bit 15) clear, yet
`checkResponse` returns no error (`false`); and the check reads only
`flags`, never comparing the response id with the query id — two headers
differing only in `id` are treated identically. -/
theorem checkResponse_threshold_not_qr_bit :
    checkResponse ⟨0, 32767, 0, 0, 0, 0⟩ = false ∧
    Nat.testBit 32767 15 = false ∧
    ∀ (h : dnsHeader) (i j : Nat),
      checkResponse { h with id := i } = checkResponse { h with id := j } := by
  refine ⟨by decide, by decide, fun h i j => rfl⟩

/-- C6: the query id `main` places in every outgoing query is the literal
constant 22 — `generateQueryID` is never called — so the first two bytes of
every query message are `[0, 22]` and any two consecutive resolutions use
the same id. -/
theorem query_id_static_22 :
    sendingHeader.id = 22 ∧ mainQueryMessage.take 2 = [0, 22] := by
  decide

end DnsResolver
